import Mathlib

/-!
Shallow embedding of the access-control and credential-lifecycle core of the
peersdiary-mgdb repository (TypeScript/Express/Mongoose), together with
theorems settling the specification claims about it.

Sources embedded:
* `src/middleware/auth.middleware.ts` — `checkPermission` (permission resolver);
* `src/models/user-credentials.schema.ts` — lockout state machine and
  refresh-token ring methods (`isAccountLocked`, `incrementFailedAttempts`,
  `resetFailedAttempts`, `addRefreshToken`, `removeRefreshToken`,
  `removeAllRefreshTokens`);
* `src/utils/password.utils.ts` — `validatePasswordStrength`, digest helpers;
* `src/controller/auth.controller.ts` — `login`, `logout`, `changePassword`,
  `forgotPassword`, `resetPassword`.

Dates are modelled as `Nat` millisecond timestamps; `Date` comparisons in the
source become `<` on `Nat`.  The bcrypt and sha256 one-way functions are
modelled as injective tagging functions, which preserves exactly the
match/mismatch behaviour the control flow depends on.
-/

namespace PeersDiary

/-! ## Data model: permissions, roles, profiles
(`permission.schema.ts`, `role.schema.ts`, `staff-profile.schema.ts`,
with references populated the way `checkPermission` populates them). -/

/-- A Permission record (`permission.schema.ts`): only the fields
`checkPermission` reads. -/
structure Permission where
  resource : String
  isActive : Bool
deriving Repr, DecidableEq

/-- A role's permission entry (`role.schema.ts`, `RolePermission`), with
`permissionId` populated to the full Permission record. -/
structure RolePermission where
  permissionId : Permission
  allowedActions : List String
deriving Repr, DecidableEq

/-- A Role record (`role.schema.ts`): the fields the resolver can read. -/
structure Role where
  permissions : List RolePermission
  isActive : Bool
deriving Repr, DecidableEq

/-- A per-user permission override (`staff-profile.schema.ts`,
`StaffCustomPermission`), with `permissionId` populated. -/
structure StaffCustomPermission where
  permissionId : Permission
  allowedActions : List String
  isRevoked : Bool
deriving Repr, DecidableEq

/-- A staff profile (`staff-profile.schema.ts`): the access-control fields. -/
structure StaffProfile where
  assignedRoles : List Role
  customPermissions : List StaffCustomPermission
  isActive : Bool
deriving Repr, DecidableEq

/-! ## Permission resolver (`auth.middleware.ts`, `checkPermission`) -/

/-- Inner loop of `checkPermission` over one role's `permissions`
(auth.middleware.ts lines 190–200): breaks (returns true) at the first entry
whose populated permission has the queried resource, whose `allowedActions`
contains the action, and whose Permission record is active.  Note the source
does NOT consult `role.isActive` anywhere in this loop. -/
def rolePermissionLoop (resource action : String) : List RolePermission → Bool
  | [] => false
  | rp :: rest =>
    if rp.permissionId.resource == resource
        && rp.allowedActions.contains action
        && rp.permissionId.isActive then
      true
    else
      rolePermissionLoop resource action rest

/-- Outer loop of `checkPermission` over `profile.assignedRoles`
(auth.middleware.ts lines 189–202): `hasPermission` after the role phase. -/
def roleGrant (resource action : String) : List Role → Bool
  | [] => false
  | role :: rest =>
    if rolePermissionLoop resource action role.permissions then
      true
    else
      roleGrant resource action rest

/-- The `customPermissions` loop of `checkPermission` (auth.middleware.ts
lines 205–218), threading the incoming `hasPermission` value: the first entry
whose populated permission matches the resource and is revoked forces false;
the first matching non-revoked entry containing the action forces true;
matching non-revoked entries without the action are skipped. -/
def customPermissionLoop (resource action : String) (hasPermission : Bool) :
    List StaffCustomPermission → Bool
  | [] => hasPermission
  | cp :: rest =>
    if cp.permissionId.resource == resource then
      if cp.isRevoked then
        false
      else if cp.allowedActions.contains action then
        true
      else
        customPermissionLoop resource action hasPermission rest
    else
      customPermissionLoop resource action hasPermission rest

/-- The final allow/deny decision of `checkPermission` for a profile and a
(resource, action) query: the role phase followed by the custom-override
phase. -/
def checkPermissionDecision (profile : StaffProfile) (resource action : String) : Bool :=
  customPermissionLoop resource action
    (roleGrant resource action profile.assignedRoles)
    profile.customPermissions

/-- Modelled from the spec (§4.4 step 1): the spec's version of `roleGrant`,
which additionally requires the assigned role itself to be active.  Kept
separate from `roleGrant` (the code's version) so the two can be compared. -/
def roleGrantSpec (resource action : String) (roles : List Role) : Bool :=
  roles.any fun role =>
    role.isActive &&
      role.permissions.any fun rp =>
        rp.permissionId.resource == resource
          && rp.allowedActions.contains action
          && rp.permissionId.isActive

/-- A profile whose single assigned role is inactive but carries an active
Permission entry for (staff, read): used to separate the code's `roleGrant`
from the spec's. -/
def inactiveRoleProfile : StaffProfile :=
  { assignedRoles :=
      [ { permissions :=
            [ { permissionId := { resource := "staff", isActive := true },
                allowedActions := ["read"] } ],
          isActive := false } ],
    customPermissions := [],
    isActive := true }

/-- Membership characterization of the inner role-permission loop. -/
theorem rolePermissionLoop_eq_true_iff (resource action : String)
    (ps : List RolePermission) :
    rolePermissionLoop resource action ps = true ↔
      ∃ rp ∈ ps, rp.permissionId.resource = resource ∧
        action ∈ rp.allowedActions ∧ rp.permissionId.isActive = true := by
  induction ps with
  | nil => simp [rolePermissionLoop]
  | cons rp rest ih =>
    simp only [rolePermissionLoop]
    by_cases hc : (rp.permissionId.resource == resource
        && rp.allowedActions.contains action && rp.permissionId.isActive) = true
    · have hc' := hc
      simp only [Bool.and_eq_true, beq_iff_eq, List.elem_iff] at hc'
      simp only [hc, if_true, true_iff]
      exact ⟨rp, List.mem_cons_self rp rest, hc'.1.1, hc'.1.2, hc'.2⟩
    · have hc' := hc
      simp only [Bool.and_eq_true, beq_iff_eq, List.elem_iff, not_and] at hc'
      rw [Bool.not_eq_true] at hc
      simp only [hc, Bool.false_eq_true, if_false, ih]
      constructor
      · rintro ⟨x, hx, hprop⟩
        exact ⟨x, List.mem_cons_of_mem rp hx, hprop⟩
      · rintro ⟨x, hx, hr, ha, hact⟩
        rcases List.mem_cons.mp hx with hx | hx
        · subst hx
          exact absurd hact (hc' ⟨hr, ha⟩)
        · exact ⟨x, hx, hr, ha, hact⟩

/-- Membership characterization of the outer role loop: the code's
`roleGrant` is an existential over ALL assigned roles, whether active or
not. -/
theorem roleGrant_eq_true_iff (resource action : String) (roles : List Role) :
    roleGrant resource action roles = true ↔
      ∃ role ∈ roles, ∃ rp ∈ role.permissions,
        rp.permissionId.resource = resource ∧
        action ∈ rp.allowedActions ∧ rp.permissionId.isActive = true := by
  induction roles with
  | nil => simp [roleGrant]
  | cons role rest ih =>
    simp only [roleGrant]
    by_cases hc : rolePermissionLoop resource action role.permissions = true
    · simp only [hc, if_true, true_iff]
      exact ⟨role, List.mem_cons_self role rest,
        (rolePermissionLoop_eq_true_iff resource action role.permissions).mp hc⟩
    · rw [Bool.not_eq_true] at hc
      simp only [hc, Bool.false_eq_true, if_false, ih]
      constructor
      · rintro ⟨x, hx, hprop⟩
        exact ⟨x, List.mem_cons_of_mem role hx, hprop⟩
      · rintro ⟨x, hx, hprop⟩
        rcases List.mem_cons.mp hx with hx | hx
        · subst hx
          have := (rolePermissionLoop_eq_true_iff resource action x.permissions).mpr hprop
          rw [this] at hc
          cases hc
        · exact ⟨x, hx, hprop⟩

/-- Claim C1 fails on the code: in `inactiveRoleProfile` the only assigned
role is inactive, yet the code's role phase grants (staff, read) — the code
never consults `role.isActive` — while the spec's version denies.  This is a
concrete input where "an inactive assigned role never contributes a grant" is
false of `checkPermission`. -/
theorem roleGrant_counterexample_inactive_role :
    roleGrant "staff" "read" inactiveRoleProfile.assignedRoles = true ∧
    checkPermissionDecision inactiveRoleProfile "staff" "read" = true ∧
    (∀ role ∈ inactiveRoleProfile.assignedRoles, role.isActive = false) ∧
    roleGrantSpec "staff" "read" inactiveRoleProfile.assignedRoles = false := by
  decide

/-- Claim C1 (amended): the code's `roleGrant` is true iff SOME assigned role
— active or not — has a permission entry whose resource equals the query
resource, whose `allowedActions` contains the query action, and whose
referenced Permission record is active.  The role's own `isActive` flag is
not consulted. -/
theorem roleGrant_characterization (profile : StaffProfile) (resource action : String) :
    roleGrant resource action profile.assignedRoles = true ↔
      ∃ role ∈ profile.assignedRoles, ∃ rp ∈ role.permissions,
        rp.permissionId.resource = resource ∧
        action ∈ rp.allowedActions ∧ rp.permissionId.isActive = true :=
  roleGrant_eq_true_iff resource action profile.assignedRoles

/-- An entry the custom-override scan passes over without deciding: either
its populated permission's resource differs from the query, or it matches but
is neither revoked nor grants the queried action (the source's `else`
fall-through that continues the loop). -/
def scanSkips (resource action : String) (e : StaffCustomPermission) : Prop :=
  e.permissionId.resource = resource →
    (e.isRevoked = false ∧ action ∉ e.allowedActions)

/-- If every entry before `cp` is skipped and `cp` matches the resource and
is revoked, the custom loop answers false whatever `hasPermission` came in. -/
theorem customPermissionLoop_revoked (resource action : String) (hp : Bool)
    (pre post : List StaffCustomPermission) (cp : StaffCustomPermission)
    (hpre : ∀ e ∈ pre, scanSkips resource action e)
    (hres : cp.permissionId.resource = resource)
    (hrev : cp.isRevoked = true) :
    customPermissionLoop resource action hp (pre ++ cp :: post) = false := by
  induction pre with
  | nil =>
    simp only [List.nil_append, customPermissionLoop, hres, beq_self_eq_true,
      if_true, hrev]
  | cons e pre ih =>
    have ihe := ih fun x hx => hpre x (List.mem_cons_of_mem e hx)
    by_cases he : e.permissionId.resource = resource
    · obtain ⟨hnr, hna⟩ := hpre e (List.mem_cons_self e pre) he
      have hcontains : e.allowedActions.contains action = false := by
        rw [← Bool.not_eq_true]
        intro h
        exact hna (List.elem_iff.mp h)
      simp only [List.cons_append, customPermissionLoop, he, beq_self_eq_true,
        if_true, hnr, Bool.false_eq_true, if_false, hcontains, List.append_eq, ihe]
    · have hbeq : (e.permissionId.resource == resource) = false := by
        rw [← Bool.not_eq_true]
        intro h
        exact he (beq_iff_eq.mp h)
      simp only [List.cons_append, customPermissionLoop, hbeq,
        Bool.false_eq_true, if_false, List.append_eq, ihe]

/-- If every entry before `cp` is skipped and `cp` matches the resource, is
not revoked, and grants the queried action, the custom loop answers true
whatever `hasPermission` came in. -/
theorem customPermissionLoop_granted (resource action : String) (hp : Bool)
    (pre post : List StaffCustomPermission) (cp : StaffCustomPermission)
    (hpre : ∀ e ∈ pre, scanSkips resource action e)
    (hres : cp.permissionId.resource = resource)
    (hrev : cp.isRevoked = false)
    (hact : action ∈ cp.allowedActions) :
    customPermissionLoop resource action hp (pre ++ cp :: post) = true := by
  induction pre with
  | nil =>
    have hcontains : cp.allowedActions.contains action = true :=
      List.elem_iff.mpr hact
    simp only [List.nil_append, customPermissionLoop, hres, beq_self_eq_true,
      if_true, hrev, Bool.false_eq_true, if_false, hcontains]
  | cons e pre ih =>
    have ihe := ih fun x hx => hpre x (List.mem_cons_of_mem e hx)
    by_cases he : e.permissionId.resource = resource
    · obtain ⟨hnr, hna⟩ := hpre e (List.mem_cons_self e pre) he
      have hcontains : e.allowedActions.contains action = false := by
        rw [← Bool.not_eq_true]
        intro h
        exact hna (List.elem_iff.mp h)
      simp only [List.cons_append, customPermissionLoop, he, beq_self_eq_true,
        if_true, hnr, Bool.false_eq_true, if_false, hcontains, List.append_eq, ihe]
    · have hbeq : (e.permissionId.resource == resource) = false := by
        rw [← Bool.not_eq_true]
        intro h
        exact he (beq_iff_eq.mp h)
      simp only [List.cons_append, customPermissionLoop, hbeq,
        Bool.false_eq_true, if_false, List.append_eq, ihe]

/-- If no entry's populated permission matches the resource, the custom loop
returns the incoming `hasPermission` unchanged. -/
theorem customPermissionLoop_no_match (resource action : String) (hp : Bool)
    (cps : List StaffCustomPermission)
    (h : ∀ e ∈ cps, e.permissionId.resource ≠ resource) :
    customPermissionLoop resource action hp cps = hp := by
  induction cps with
  | nil => rfl
  | cons e rest ih =>
    have hbeq : (e.permissionId.resource == resource) = false := by
      rw [← Bool.not_eq_true]
      intro hb
      exact h e (List.mem_cons_self e rest) (beq_iff_eq.mp hb)
    simp only [customPermissionLoop, hbeq, Bool.false_eq_true, if_false]
    exact ih fun x hx => h x (List.mem_cons_of_mem e hx)

/-- Claim C2: for every profile and (resource, action) query, scanning the
`customPermissions` list in stored order: if the first decisive matching
entry is revoked, the final decision is deny regardless of the role grant;
if the first decisive matching entry is non-revoked and contains the action,
the final decision is grant even when `roleGrant` is false; and if no custom
entry matches the resource, the decision equals `roleGrant`. -/
theorem checkPermission_custom_override (profile : StaffProfile)
    (resource action : String) :
    (∀ pre post cp,
      profile.customPermissions = pre ++ cp :: post →
      (∀ e ∈ pre, scanSkips resource action e) →
      cp.permissionId.resource = resource →
      ((cp.isRevoked = true →
          checkPermissionDecision profile resource action = false) ∧
       (cp.isRevoked = false → action ∈ cp.allowedActions →
          checkPermissionDecision profile resource action = true)))
  ∧ ((∀ e ∈ profile.customPermissions, e.permissionId.resource ≠ resource) →
      checkPermissionDecision profile resource action =
        roleGrant resource action profile.assignedRoles) := by
  constructor
  · intro pre post cp hsplit hpre hres
    constructor
    · intro hrev
      unfold checkPermissionDecision
      rw [hsplit]
      exact customPermissionLoop_revoked resource action _ pre post cp hpre hres hrev
    · intro hrev hact
      unfold checkPermissionDecision
      rw [hsplit]
      exact customPermissionLoop_granted resource action _ pre post cp hpre hres hrev hact
  · intro hnone
    unfold checkPermissionDecision
    exact customPermissionLoop_no_match resource action _ profile.customPermissions hnone

/-- A profile with a role grant for (staff, read) but a custom override
revoking the staff resource: the resolver must deny (staff, read). -/
def revokedOverrideProfile : StaffProfile :=
  { assignedRoles :=
      [ { permissions :=
            [ { permissionId := { resource := "staff", isActive := true },
                allowedActions := ["read"] } ],
          isActive := true } ],
    customPermissions :=
      [ { permissionId := { resource := "staff", isActive := true },
          allowedActions := ["read"],
          isRevoked := true } ],
    isActive := true }

/-- A profile with no role grant for (payroll, export) but a custom override
granting it: the resolver must grant. -/
def grantedOverrideProfile : StaffProfile :=
  { assignedRoles := [],
    customPermissions :=
      [ { permissionId := { resource := "payroll", isActive := true },
          allowedActions := ["export"],
          isRevoked := false } ],
    isActive := true }

/-- Witness for claim C2: a revocation override denies (staff, read) despite
the role grant; a grant override allows (payroll, export) despite no role
grant; and with no matching custom entry the decision equals the role
grant. -/
theorem checkPermission_custom_override_witness :
    checkPermissionDecision revokedOverrideProfile "staff" "read" = false ∧
    checkPermissionDecision grantedOverrideProfile "payroll" "export" = true ∧
    checkPermissionDecision revokedOverrideProfile "payroll" "export" =
      roleGrant "payroll" "export" revokedOverrideProfile.assignedRoles := by
  refine ⟨?_, ?_, ?_⟩
  · exact ((checkPermission_custom_override revokedOverrideProfile "staff" "read").1
      [] []
      { permissionId := { resource := "staff", isActive := true },
        allowedActions := ["read"], isRevoked := true }
      rfl (by intro e he; cases he) rfl).1 rfl
  · exact ((checkPermission_custom_override grantedOverrideProfile "payroll" "export").1
      [] []
      { permissionId := { resource := "payroll", isActive := true },
        allowedActions := ["export"], isRevoked := false }
      rfl (by intro e he; cases he) rfl).2 rfl (by decide)
  · exact (checkPermission_custom_override revokedOverrideProfile "payroll" "export").2
      (by decide)

/-! ## Credential store (`user-credentials.schema.ts`) -/

/-- A stored refresh-token record (`RefreshToken` interface). -/
structure RefreshTokenRecord where
  token : String
  expiresAt : Nat
  createdAt : Nat
  deviceInfo : Option String
  ipAddress : Option String
deriving Repr, DecidableEq

/-- A stored password-reset record (`PasswordReset` interface); `token` holds
the sha256 digest of the raw token. -/
structure PasswordResetRecord where
  token : String
  expiresAt : Nat
  createdAt : Nat
  used : Bool
deriving Repr, DecidableEq

/-- The per-user credential aggregate (`UserCredentials` interface): the
fields the auth controller and schema methods read or write. -/
structure UserCredentials where
  email : String
  password : String
  refreshTokens : List RefreshTokenRecord
  passwordResetTokens : List PasswordResetRecord
  passwordChangedAt : Option Nat
  lastPasswordChange : Option Nat
  failedLoginAttempts : Nat
  accountLockedUntil : Option Nat
deriving Repr, DecidableEq

/-- `isAccountLocked` (user-credentials.schema.ts lines 235–238): locked iff
`accountLockedUntil` is set and lies strictly in the future. -/
def isAccountLocked (c : UserCredentials) (now : Nat) : Bool :=
  match c.accountLockedUntil with
  | none => false
  | some t => now < t

/-- The 30-minute lock duration, in milliseconds. -/
def lockDurationMs : Nat := 30 * 60 * 1000

/-- `incrementFailedAttempts` (lines 241–250): bump the counter and, when the
new count has reached 5, set the lock to now + 30 minutes. -/
def incrementFailedAttempts (c : UserCredentials) (now : Nat) : UserCredentials :=
  let c := { c with failedLoginAttempts := c.failedLoginAttempts + 1 }
  if 5 ≤ c.failedLoginAttempts then
    { c with accountLockedUntil := some (now + lockDurationMs) }
  else
    c

/-- `resetFailedAttempts` (lines 253–257): zero the counter and clear the
lock. -/
def resetFailedAttempts (c : UserCredentials) : UserCredentials :=
  { c with failedLoginAttempts := 0, accountLockedUntil := none }

/-- `addRefreshToken` (lines 260–285): prune expired records, evict the
oldest (the array's first element, via `shift()`) when 5 or more remain, then
append the new record. -/
def addRefreshToken (c : UserCredentials) (token : String) (expiresAt now : Nat)
    (deviceInfo ipAddress : Option String) : UserCredentials :=
  let kept := c.refreshTokens.filter fun rt => now < rt.expiresAt
  let kept := if 5 ≤ kept.length then kept.tail else kept
  { c with refreshTokens :=
      kept ++ [{ token := token, expiresAt := expiresAt, createdAt := now,
                 deviceInfo := deviceInfo, ipAddress := ipAddress }] }

/-- `removeRefreshToken` (lines 288–293): keep every record whose token
differs. -/
def removeRefreshToken (c : UserCredentials) (token : String) : UserCredentials :=
  { c with refreshTokens := c.refreshTokens.filter fun rt => rt.token != token }

/-- `removeAllRefreshTokens` (lines 296–299). -/
def removeAllRefreshTokens (c : UserCredentials) : UserCredentials :=
  { c with refreshTokens := [] }

/-! ## Password utilities (`password.utils.ts`) -/

/-- Model of bcrypt hashing: an injective tagging function.  Only the
match/mismatch behaviour of `bcrypt.compare` is relevant to the control
flow. -/
def hashPassword (password : String) : String := "bcrypt$" ++ password

/-- Model of `comparePassword(password, hashedPassword)` =
`bcrypt.compare`. -/
def comparePassword (password hashed : String) : Bool :=
  hashPassword password == hashed

/-- Model of `hashResetToken` (sha256 digest): an injective tagging
function. -/
def hashResetToken (token : String) : String := "sha256$" ++ token

/-- The special-character class of `validatePasswordStrength`. -/
def passwordSpecialChars : List Char :=
  ['!', '@', '#', '$', '%', '^', '&', '*', '(', ')', ',', '.', '?', '\"',
   ':', '\x7b', '\x7d', '|', '<', '>']

/-- `validatePasswordStrength` (password.utils.ts lines 56–85): the list of
policy violations. -/
def passwordStrengthErrors (password : String) : List String :=
  (if password.length < 8 then
    ["Password must be at least 8 characters long"] else []) ++
  (if password.toList.any (fun ch => 'a' ≤ ch && ch ≤ 'z') then [] else
    ["Password must contain at least one lowercase letter"]) ++
  (if password.toList.any (fun ch => 'A' ≤ ch && ch ≤ 'Z') then [] else
    ["Password must contain at least one uppercase letter"]) ++
  (if password.toList.any (fun ch => '0' ≤ ch && ch ≤ '9') then [] else
    ["Password must contain at least one number"]) ++
  (if password.toList.any (fun ch => passwordSpecialChars.contains ch) then [] else
    ["Password must contain at least one special character"])

/-- The `isValid` field of the `validatePasswordStrength` result:
`errors.length === 0`. -/
def validatePasswordStrength (password : String) : Bool :=
  (passwordStrengthErrors password).isEmpty

/-! ## Session orchestrator (`auth.controller.ts`) -/

/-- The refresh-token lifetime used by `login`: 7 days in milliseconds. -/
def refreshTokenLifetimeMs : Nat := 7 * 24 * 60 * 60 * 1000

/-- Outcome of `AuthController.login` for an existing credential. -/
inductive LoginResult where
  /-- 401 "Invalid email or password". -/
  | invalidEmailOrPassword
  /-- 403 "Account is locked due to multiple failed login attempts". -/
  | accountLocked
  /-- 403 "Account is inactive". -/
  | accountInactive
  /-- 200 "Login successful". -/
  | success
deriving Repr, DecidableEq

/-- `AuthController.login` (auth.controller.ts), for a credential found by
email: lockout check, then password comparison — on mismatch
`incrementFailedAttempts`, on match `resetFailedAttempts` followed by the
profile-activity check and storage of the fresh refresh token. -/
def login (c : UserCredentials) (password : String) (profileActive : Bool)
    (now : Nat) (newRefreshToken : String) (deviceInfo ipAddress : Option String) :
    LoginResult × UserCredentials :=
  if isAccountLocked c now then
    (.accountLocked, c)
  else if !comparePassword password c.password then
    (.invalidEmailOrPassword, incrementFailedAttempts c now)
  else
    let c := resetFailedAttempts c
    if !profileActive then
      (.accountInactive, c)
    else
      (.success,
        addRefreshToken c newRefreshToken (now + refreshTokenLifetimeMs) now
          deviceInfo ipAddress)

/-- Control-flow summary of `incrementFailedAttempts`: the counter always
grows by exactly 1; the lock is set to now + 30 minutes exactly when the new
count has reached 5, and is untouched otherwise. -/
theorem incrementFailedAttempts_spec (c : UserCredentials) (now : Nat) :
    (incrementFailedAttempts c now).failedLoginAttempts = c.failedLoginAttempts + 1 ∧
    (5 ≤ c.failedLoginAttempts + 1 →
      (incrementFailedAttempts c now).accountLockedUntil = some (now + lockDurationMs)) ∧
    (c.failedLoginAttempts + 1 < 5 →
      (incrementFailedAttempts c now).accountLockedUntil = c.accountLockedUntil) := by
  by_cases h5 : 5 ≤ c.failedLoginAttempts + 1
  · refine ⟨?_, fun _ => ?_, fun hlt => absurd h5 (by omega)⟩ <;>
      simp [incrementFailedAttempts, h5]
  · refine ⟨?_, fun hge => absurd hge h5, fun _ => ?_⟩ <;>
      simp [incrementFailedAttempts, h5]

/-- With the lock absent or expired, `login` with a mismatching password is
exactly `incrementFailedAttempts`. -/
theorem login_wrong_password_eq (c : UserCredentials) (pw : String) (pa : Bool)
    (now : Nat) (tok : String) (d i : Option String)
    (hNotLocked : isAccountLocked c now = false)
    (hWrong : comparePassword pw c.password = false) :
    login c pw pa now tok d i = (.invalidEmailOrPassword, incrementFailedAttempts c now) := by
  simp [login, hNotLocked, hWrong]

/-- Claim C3: from the Unlocked state (`accountLockedUntil` absent), a login
attempt with a non-matching password increments `failedLoginAttempts` by
exactly 1; if the resulting count reaches 5 the credential becomes Locked
with `accountLockedUntil = now + 30 minutes`, and if the resulting count is
below 5 `accountLockedUntil` remains unset. -/
theorem login_mismatch_increments (c : UserCredentials) (pw : String) (pa : Bool)
    (now : Nat) (tok : String) (d i : Option String)
    (hUnlocked : c.accountLockedUntil = none)
    (hWrong : comparePassword pw c.password = false) :
    (login c pw pa now tok d i).1 = .invalidEmailOrPassword ∧
    (login c pw pa now tok d i).2.failedLoginAttempts = c.failedLoginAttempts + 1 ∧
    (5 ≤ (login c pw pa now tok d i).2.failedLoginAttempts →
      (login c pw pa now tok d i).2.accountLockedUntil = some (now + lockDurationMs)) ∧
    ((login c pw pa now tok d i).2.failedLoginAttempts < 5 →
      (login c pw pa now tok d i).2.accountLockedUntil = none) := by
  have hNotLocked : isAccountLocked c now = false := by
    simp [isAccountLocked, hUnlocked]
  rw [login_wrong_password_eq c pw pa now tok d i hNotLocked hWrong]
  obtain ⟨hcount, hlock, hnolock⟩ := incrementFailedAttempts_spec c now
  refine ⟨rfl, hcount, ?_, ?_⟩
  · intro hge
    rw [hcount] at hge
    exact hlock hge
  · intro hlt
    rw [hcount] at hlt
    rw [hnolock hlt, hUnlocked]

/-- A credential with 4 prior failures and no lock: one more mismatch must
reach 5 failures and lock the account for 30 minutes. -/
def fourFailuresCred : UserCredentials :=
  { email := "a@x.com", password := hashPassword "Secret@1",
    refreshTokens := [], passwordResetTokens := [],
    passwordChangedAt := none, lastPasswordChange := none,
    failedLoginAttempts := 4, accountLockedUntil := none }

/-- Witness for claim C3: the fifth mismatch locks `fourFailuresCred` until
now + 30 minutes. -/
theorem login_mismatch_increments_witness :
    (login fourFailuresCred "wrong" true 1000 "rt1" none none).2.failedLoginAttempts = 5 ∧
    (login fourFailuresCred "wrong" true 1000 "rt1" none none).2.accountLockedUntil
      = some (1000 + lockDurationMs) := by
  have h := login_mismatch_increments fourFailuresCred "wrong" true 1000 "rt1"
    none none rfl (by decide)
  have hc : fourFailuresCred.failedLoginAttempts + 1 = 5 := by decide
  refine ⟨h.2.1.trans hc, h.2.2.1 ?_⟩
  rw [h.2.1, hc]

/-- Claim C4: while Locked with `now < accountLockedUntil`, every login
attempt returns AccountLocked and leaves the credential — in particular the
failure counter — completely unchanged, regardless of the password; once the
lock has elapsed, a correct-password login (with an active profile) succeeds,
resets `failedLoginAttempts` to 0, and clears `accountLockedUntil`. -/
theorem login_locked_window (c : UserCredentials) (pw : String) (pa : Bool)
    (now : Nat) (tok : String) (d i : Option String) (t : Nat)
    (hLock : c.accountLockedUntil = some t) :
    (now < t → login c pw pa now tok d i = (.accountLocked, c)) ∧
    (t ≤ now → comparePassword pw c.password = true → pa = true →
      (login c pw pa now tok d i).1 = .success ∧
      (login c pw pa now tok d i).2.failedLoginAttempts = 0 ∧
      (login c pw pa now tok d i).2.accountLockedUntil = none) := by
  constructor
  · intro hfuture
    have hlocked : isAccountLocked c now = true := by
      simp [isAccountLocked, hLock, hfuture]
    simp [login, hlocked]
  · intro helapsed hmatch hpa
    have hNotLocked : isAccountLocked c now = false := by
      simp only [isAccountLocked, hLock, decide_eq_false_iff_not]
      omega
    simp [login, hNotLocked, hmatch, hpa, resetFailedAttempts, addRefreshToken]

/-- A credential locked until t = 2000 with 5 recorded failures. -/
def lockedCred : UserCredentials :=
  { email := "a@x.com", password := hashPassword "Secret@1",
    refreshTokens := [], passwordResetTokens := [],
    passwordChangedAt := none, lastPasswordChange := none,
    failedLoginAttempts := 5, accountLockedUntil := some 2000 }

/-- Witness for claim C4: at now = 1500 even the correct password is rejected
with AccountLocked and the state is untouched; at now = 2500 the correct
password succeeds, zeroing the counter and clearing the lock. -/
theorem login_locked_window_witness :
    login lockedCred "Secret@1" true 1500 "rt1" none none = (.accountLocked, lockedCred) ∧
    (login lockedCred "Secret@1" true 2500 "rt1" none none).1 = .success ∧
    (login lockedCred "Secret@1" true 2500 "rt1" none none).2.failedLoginAttempts = 0 ∧
    (login lockedCred "Secret@1" true 2500 "rt1" none none).2.accountLockedUntil = none := by
  have h₁ := (login_locked_window lockedCred "Secret@1" true 1500 "rt1" none none 2000 rfl).1
    (by omega)
  have h₂ := (login_locked_window lockedCred "Secret@1" true 2500 "rt1" none none 2000 rfl).2
    (by omega) (by decide) rfl
  exact ⟨h₁, h₂⟩

/-- Claim C10: lock expiry does not reset the failure counter — with the lock
elapsed and at least 5 recorded failures, a single further mismatch re-locks
the account for a fresh 30 minutes; and across all login inputs, the only way
`failedLoginAttempts` comes out 0 is that it was already 0 or the password
matched. -/
theorem login_relock_after_expiry (c : UserCredentials) (pw : String) (pa : Bool)
    (now : Nat) (tok : String) (d i : Option String) (t : Nat)
    (hLock : c.accountLockedUntil = some t) (hElapsed : t ≤ now)
    (hCount : 5 ≤ c.failedLoginAttempts)
    (hWrong : comparePassword pw c.password = false) :
    (login c pw pa now tok d i).2.accountLockedUntil = some (now + lockDurationMs) ∧
    (login c pw pa now tok d i).2.failedLoginAttempts = c.failedLoginAttempts + 1 ∧
    ∀ (c₂ : UserCredentials) (pw₂ : String) (pa₂ : Bool) (now₂ : Nat)
      (tok₂ : String) (d₂ i₂ : Option String),
      (login c₂ pw₂ pa₂ now₂ tok₂ d₂ i₂).2.failedLoginAttempts = 0 →
      c₂.failedLoginAttempts = 0 ∨ comparePassword pw₂ c₂.password = true := by
  have hNotLocked : isAccountLocked c now = false := by
    simp only [isAccountLocked, hLock, decide_eq_false_iff_not]
    omega
  rw [login_wrong_password_eq c pw pa now tok d i hNotLocked hWrong]
  obtain ⟨hcount, hlock, _⟩ := incrementFailedAttempts_spec c now
  refine ⟨hlock (by omega), hcount, ?_⟩
  intro c₂ pw₂ pa₂ now₂ tok₂ d₂ i₂ hzero
  by_cases hl₂ : isAccountLocked c₂ now₂ = true
  · left
    simpa [login, hl₂] using hzero
  · rw [Bool.not_eq_true] at hl₂
    by_cases hm₂ : comparePassword pw₂ c₂.password = true
    · right
      exact hm₂
    · rw [Bool.not_eq_true] at hm₂
      exfalso
      rw [login_wrong_password_eq c₂ pw₂ pa₂ now₂ tok₂ d₂ i₂ hl₂ hm₂] at hzero
      have := (incrementFailedAttempts_spec c₂ now₂).1
      simp only [this] at hzero
      omega

/-- Witness for claim C10: `lockedCred` (locked until 2000, 5 failures) at
now = 3000 with a wrong password is immediately re-locked until
3000 + 30 minutes. -/
theorem login_relock_after_expiry_witness :
    (login lockedCred "wrong" true 3000 "rt1" none none).2.accountLockedUntil
      = some (3000 + lockDurationMs) ∧
    (login lockedCred "wrong" true 3000 "rt1" none none).2.failedLoginAttempts = 6 := by
  have h := login_relock_after_expiry lockedCred "wrong" true 3000 "rt1" none none
    2000 rfl (by omega) (by decide) (by decide)
  have hc : lockedCred.failedLoginAttempts + 1 = 6 := by decide
  exact ⟨h.1, h.2.1.trans hc⟩

/-! ## Refresh-token ring: operation sequences -/

/-- One mutation of the stored refresh-token list, as exposed by the schema
methods. -/
inductive RingOp where
  | add (token : String) (expiresAt now : Nat) (deviceInfo ipAddress : Option String)
  | remove (token : String)
  | removeAll
deriving Repr

/-- Apply one ring operation to a credential. -/
def applyRingOp (c : UserCredentials) : RingOp → UserCredentials
  | .add token expiresAt now deviceInfo ipAddress =>
      addRefreshToken c token expiresAt now deviceInfo ipAddress
  | .remove token => removeRefreshToken c token
  | .removeAll => removeAllRefreshTokens c

/-- Apply a sequence of ring operations, oldest first. -/
def applyRingOps (c : UserCredentials) (ops : List RingOp) : UserCredentials :=
  ops.foldl applyRingOp c

/-- `addRefreshToken` keeps the ring within 5 records whenever it was within
5 before the call. -/
theorem addRefreshToken_length_le (c : UserCredentials) (token : String)
    (expiresAt now : Nat) (d i : Option String)
    (h : c.refreshTokens.length ≤ 5) :
    (addRefreshToken c token expiresAt now d i).refreshTokens.length ≤ 5 := by
  have hk : (c.refreshTokens.filter fun rt => now < rt.expiresAt).length
      ≤ c.refreshTokens.length := List.length_filter_le _ _
  by_cases h5 : 5 ≤ (c.refreshTokens.filter fun rt => now < rt.expiresAt).length
  · simp only [addRefreshToken, h5, if_true, List.length_append,
      List.length_tail, List.length_cons, List.length_nil]
    omega
  · simp only [addRefreshToken, h5, if_false, List.length_append,
      List.length_cons, List.length_nil]
    omega

/-- Claim C5: `addRefreshToken` first removes every expired record (each old
record surviving the call is unexpired), evicts exactly the single oldest
record when 5 unexpired records are present, and the ring never exceeds 5
records across any sequence of add / remove / removeAll operations starting
within the bound. -/
theorem refreshTokenRing_spec :
    (∀ (c : UserCredentials) (token : String) (expiresAt now : Nat)
        (d i : Option String),
      ∀ rt ∈ (addRefreshToken c token expiresAt now d i).refreshTokens,
        now < rt.expiresAt ∨
          rt = { token := token, expiresAt := expiresAt, createdAt := now,
                 deviceInfo := d, ipAddress := i }) ∧
    (∀ (c : UserCredentials) (token : String) (expiresAt now : Nat)
        (d i : Option String),
      (∀ rt ∈ c.refreshTokens, now < rt.expiresAt) →
      c.refreshTokens.length = 5 →
      (addRefreshToken c token expiresAt now d i).refreshTokens =
        c.refreshTokens.tail ++
          [{ token := token, expiresAt := expiresAt, createdAt := now,
             deviceInfo := d, ipAddress := i }]) ∧
    (∀ (c : UserCredentials) (ops : List RingOp),
      c.refreshTokens.length ≤ 5 →
      (applyRingOps c ops).refreshTokens.length ≤ 5) := by
  refine ⟨?_, ?_, ?_⟩
  · intro c token expiresAt now d i rt hrt
    simp only [addRefreshToken] at hrt
    rcases List.mem_append.mp hrt with h | h
    · left
      have hmem : rt ∈ c.refreshTokens.filter fun rt => now < rt.expiresAt := by
        by_cases h5 : 5 ≤ (c.refreshTokens.filter fun rt => now < rt.expiresAt).length
        · rw [if_pos h5] at h
          exact List.tail_subset _ h
        · rw [if_neg h5] at h
          exact h
      exact of_decide_eq_true (List.mem_filter.mp hmem).2
    · right
      simpa using h
  · intro c token expiresAt now d i hfresh hlen
    have hfilter : (c.refreshTokens.filter fun rt => now < rt.expiresAt)
        = c.refreshTokens :=
      List.filter_eq_self.mpr fun rt hrt => decide_eq_true (hfresh rt hrt)
    simp only [addRefreshToken, hfilter, hlen]
    rfl
  · intro c ops
    induction ops generalizing c with
    | nil => exact fun h => h
    | cons op rest ih =>
      intro h
      have hstep : (applyRingOp c op).refreshTokens.length ≤ 5 := by
        cases op with
        | add token expiresAt now d i =>
          exact addRefreshToken_length_le c token expiresAt now d i h
        | remove token =>
          exact le_trans (List.length_filter_le _ _) h
        | removeAll =>
          simp [applyRingOp, removeAllRefreshTokens]
      exact ih (applyRingOp c op) hstep

/-- A credential holding 5 unexpired refresh tokens (at now = 0). -/
def fullRingCred : UserCredentials :=
  { email := "a@x.com", password := hashPassword "Secret@1",
    refreshTokens :=
      [ { token := "t1", expiresAt := 100, createdAt := 1, deviceInfo := none, ipAddress := none },
        { token := "t2", expiresAt := 100, createdAt := 2, deviceInfo := none, ipAddress := none },
        { token := "t3", expiresAt := 100, createdAt := 3, deviceInfo := none, ipAddress := none },
        { token := "t4", expiresAt := 100, createdAt := 4, deviceInfo := none, ipAddress := none },
        { token := "t5", expiresAt := 100, createdAt := 5, deviceInfo := none, ipAddress := none } ],
    passwordResetTokens := [],
    passwordChangedAt := none, lastPasswordChange := none,
    failedLoginAttempts := 0, accountLockedUntil := none }

/-- Witness for claim C5: adding a sixth token to a full ring of unexpired
tokens evicts exactly the oldest ("t1"), every surviving old record is
unexpired, and a sample operation sequence stays within the 5-record
bound. -/
theorem refreshTokenRing_spec_witness :
    (addRefreshToken fullRingCred "t6" 90 10 none none).refreshTokens =
      fullRingCred.refreshTokens.tail ++
        [{ token := "t6", expiresAt := 90, createdAt := 10,
           deviceInfo := none, ipAddress := none }] ∧
    (applyRingOps fullRingCred
        [.add "t6" 90 10 none none, .remove "t3", .add "t7" 95 11 none none]).refreshTokens.length ≤ 5 := by
  constructor
  · exact refreshTokenRing_spec.2.1 fullRingCred "t6" 90 10 none none
      (by decide) (by decide)
  · exact refreshTokenRing_spec.2.2 fullRingCred
      [.add "t6" 90 10 none none, .remove "t3", .add "t7" 95 11 none none]
      (by decide)

/-! ## Password change and reset (`auth.controller.ts`) -/

/-- Outcome of `AuthController.changePassword` for an existing credential. -/
inductive ChangePasswordResult where
  /-- 400 "New password does not meet requirements". -/
  | validationFailed
  /-- 401 "Current password is incorrect". -/
  | wrongCurrentPassword
  /-- 200 "Password changed successfully". -/
  | success
deriving Repr, DecidableEq

/-- `AuthController.changePassword`, for the caller's credential: strength
check, current-password check, then rehash, stamp the change dates, and drop
every refresh token. -/
def changePassword (c : UserCredentials) (currentPassword newPassword : String)
    (now : Nat) : ChangePasswordResult × UserCredentials :=
  if !validatePasswordStrength newPassword then
    (.validationFailed, c)
  else if !comparePassword currentPassword c.password then
    (.wrongCurrentPassword, c)
  else
    (.success,
      { c with password := hashPassword newPassword,
               passwordChangedAt := some now,
               lastPasswordChange := some now,
               refreshTokens := [] })

/-- The Mongo lookup of `resetPassword`:
`findOne({ "passwordResetTokens.token": digest,
           "passwordResetTokens.expiresAt": { $gt: now },
           "passwordResetTokens.used": false })`.
MongoDB evaluates each dotted-path condition over the array elements
independently (there is no `$elemMatch`), so the document matches as soon as
SOME element has the digest, SOME element is unexpired, and SOME element is
unused — not necessarily the same element. -/
def matchesResetLookup (c : UserCredentials) (digest : String) (now : Nat) : Bool :=
  (c.passwordResetTokens.any fun rt => rt.token == digest) &&
  (c.passwordResetTokens.any fun rt => now < rt.expiresAt) &&
  (c.passwordResetTokens.any fun rt => rt.used == false)

/-- The `findIndex` + in-place mutation of `resetPassword`: mark the FIRST
record with the given digest as used. -/
def markTokenUsed : List PasswordResetRecord → String → List PasswordResetRecord
  | [], _ => []
  | rt :: rest, digest =>
    if rt.token == digest then
      { rt with used := true } :: rest
    else
      rt :: markTokenUsed rest digest

/-- Outcome of `AuthController.resetPassword`. -/
inductive ResetPasswordResult where
  /-- 400 "Password does not meet requirements". -/
  | validationFailed
  /-- 400 "Invalid or expired reset token". -/
  | invalidOrExpiredToken
  /-- 200 "Password reset successful". -/
  | success
deriving Repr, DecidableEq

/-- `AuthController.resetPassword`, for a single stored credential: strength
check, digest computation, the Mongo lookup above, then rehash, mark the
first digest-matching record used, and drop every refresh token. -/
def resetPassword (c : UserCredentials) (rawToken newPassword : String)
    (now : Nat) : ResetPasswordResult × UserCredentials :=
  if !validatePasswordStrength newPassword then
    (.validationFailed, c)
  else
    let digest := hashResetToken rawToken
    if matchesResetLookup c digest now then
      (.success,
        { c with password := hashPassword newPassword,
                 passwordChangedAt := some now,
                 lastPasswordChange := some now,
                 passwordResetTokens := markTokenUsed c.passwordResetTokens digest,
                 refreshTokens := [] })
    else
      (.invalidOrExpiredToken, c)

/-- The 1-hour reset-token lifetime used by `forgotPassword`. -/
def resetTokenLifetimeMs : Nat := 60 * 60 * 1000

/-- The JSON body `forgotPassword` answers with: HTTP status, `success`,
`message`, and the optional `resetToken` field the source includes when the
account exists. -/
structure ForgotPasswordResponse where
  status : Nat
  success : Bool
  message : String
  resetToken : Option String
deriving Repr, DecidableEq

/-- `AuthController.forgotPassword`: when no credential carries the email it
answers a generic success WITHOUT a token; when one does, it stores the
token's digest with a 1-hour expiry and answers a DIFFERENT message carrying
the raw reset token (the source's "DON'T DO THIS IN PRODUCTION!" branch). -/
def forgotPassword (cred : Option UserCredentials) (rawToken : String)
    (now : Nat) : ForgotPasswordResponse × Option UserCredentials :=
  match cred with
  | none =>
      ({ status := 200, success := true,
         message := "If the email exists, a reset link has been sent",
         resetToken := none }, none)
  | some c =>
      ({ status := 200, success := true,
         message := "Password reset link has been sent to your email",
         resetToken := some rawToken },
       some { c with passwordResetTokens :=
                c.passwordResetTokens ++
                  [{ token := hashResetToken rawToken,
                     expiresAt := now + resetTokenLifetimeMs,
                     createdAt := now, used := false }] })

/-! ## Logout (`auth.controller.ts`, `AuthController.logout`) -/

/-- The JSON body `logout` answers with. -/
structure LogoutResponse where
  status : Nat
  success : Bool
  message : String
deriving Repr, DecidableEq

/-- `findOne({ email })` over the credential collection: the first credential
with the given email. -/
def findCredByEmail (db : List UserCredentials) (email : String) :
    Option UserCredentials :=
  db.find? fun c => c.email == email

/-- Update the first credential with the given email, leaving the collection
unchanged when none matches (the `if (credentials)` guard of `logout`). -/
def updateCredByEmail (db : List UserCredentials) (email : String)
    (f : UserCredentials → UserCredentials) : List UserCredentials :=
  match db with
  | [] => []
  | c :: rest =>
    if c.email == email then
      f c :: rest
    else
      c :: updateCredByEmail rest email f

/-- `AuthController.logout`: a missing body token is a 400; otherwise the
refresh token is verified — on any verification failure the catch block still
answers 200 — and, when the decoded email matches a stored credential, the
matching stored token record is filtered out.  `verifyRefreshToken` is the
JWT verifier, modelled as an arbitrary function returning the decoded email
or failing. -/
def logout (verifyRefreshToken : String → Option String)
    (db : List UserCredentials) (refreshToken : Option String) :
    LogoutResponse × List UserCredentials :=
  match refreshToken with
  | none =>
      ({ status := 400, success := false,
         message := "Refresh token is required" }, db)
  | some tok =>
    match verifyRefreshToken tok with
    | none =>
        ({ status := 200, success := true, message := "Logout successful" }, db)
    | some email =>
        ({ status := 200, success := true, message := "Logout successful" },
         updateCredByEmail db email fun c => removeRefreshToken c tok)

/-! ## Claims C6–C9 -/

/-- A credential holding TWO pending reset records (the user requested a
reset twice), both unexpired and unused, with distinct digests. -/
def twoResetCred : UserCredentials :=
  { email := "u@x.com", password := hashPassword "Old@Pass1",
    refreshTokens := [],
    passwordResetTokens :=
      [ { token := hashResetToken "t1", expiresAt := 1000, createdAt := 0, used := false },
        { token := hashResetToken "t2", expiresAt := 1000, createdAt := 0, used := false } ],
    passwordChangedAt := none, lastPasswordChange := none,
    failedLoginAttempts := 0, accountLockedUntil := none }

/-- Claim C6 fails on the code: with a second pending reset record present,
the raw token "t1" succeeds TWICE.  The first call marks the "t1" record
used, yet the second call still succeeds, because the Mongo lookup's three
dotted-path conditions are satisfied by different array elements (the used
"t1" record supplies the digest match, the untouched "t2" record supplies
`used: false`).  The claim — and the spec — require the second call to fail
with InvalidOrExpiredToken. -/
theorem resetPassword_token_replay :
    (resetPassword twoResetCred "t1" "New@Pass1" 1).1 = .success ∧
    ((resetPassword twoResetCred "t1" "New@Pass1" 1).2.passwordResetTokens.map
        fun rt => rt.used) = [true, false] ∧
    (resetPassword (resetPassword twoResetCred "t1" "New@Pass1" 1).2
        "t1" "Other@Pass2" 2).1 = .success := by
  decide

/-- A credential with live sessions and one pending reset record, used to
exercise the success paths of `changePassword` and `resetPassword`. -/
def sessionsCred : UserCredentials :=
  { email := "u@x.com", password := hashPassword "Old@Pass1",
    refreshTokens :=
      [ { token := "r1", expiresAt := 100, createdAt := 1, deviceInfo := none, ipAddress := none },
        { token := "r2", expiresAt := 100, createdAt := 2, deviceInfo := none, ipAddress := none } ],
    passwordResetTokens :=
      [ { token := hashResetToken "t1", expiresAt := 1000, createdAt := 0, used := false } ],
    passwordChangedAt := none, lastPasswordChange := none,
    failedLoginAttempts := 0, accountLockedUntil := none }

/-- Claim C7: every successful `changePassword` and every successful
`resetPassword` leaves the credential with zero stored refresh tokens,
whatever the ring held before. -/
theorem password_change_clears_sessions (c : UserCredentials)
    (cur new raw : String) (now : Nat) :
    ((changePassword c cur new now).1 = .success →
      (changePassword c cur new now).2.refreshTokens = []) ∧
    ((resetPassword c raw new now).1 = .success →
      (resetPassword c raw new now).2.refreshTokens = []) := by
  constructor
  · intro h
    by_cases hv : validatePasswordStrength new = true
    · by_cases hc : comparePassword cur c.password = true
      · simp [changePassword, hv, hc]
      · rw [Bool.not_eq_true] at hc
        simp [changePassword, hv, hc] at h
    · rw [Bool.not_eq_true] at hv
      simp [changePassword, hv] at h
  · intro h
    by_cases hv : validatePasswordStrength new = true
    · by_cases hm : matchesResetLookup c (hashResetToken raw) now = true
      · simp [resetPassword, hv, hm]
      · rw [Bool.not_eq_true] at hm
        simp [resetPassword, hv, hm] at h
    · rw [Bool.not_eq_true] at hv
      simp [resetPassword, hv] at h

/-- Witness for claim C7: after a successful password change and a successful
token reset on `sessionsCred` (which holds two live sessions), the stored
refresh-token list is empty. -/
theorem password_change_clears_sessions_witness :
    (changePassword sessionsCred "Old@Pass1" "New@Pass1" 5).2.refreshTokens = [] ∧
    (resetPassword sessionsCred "t1" "New@Pass1" 5).2.refreshTokens = [] := by
  have h := password_change_clears_sessions sessionsCred "Old@Pass1" "New@Pass1" "t1" 5
  exact ⟨h.1 (by decide), h.2 (by decide)⟩

/-- An arbitrary existing credential for the forgot-password comparison. -/
def existingCred : UserCredentials :=
  { email := "u@x.com", password := hashPassword "Old@Pass1",
    refreshTokens := [], passwordResetTokens := [],
    passwordChangedAt := none, lastPasswordChange := none,
    failedLoginAttempts := 0, accountLockedUntil := none }

/-- Claim C8 fails on the code: the two `forgotPassword` responses are NOT
identical.  When the account exists the response carries a different message
AND echoes the raw reset token; when it does not exist the message differs
and no token is present — despite the source's own comment "Don't reveal if
email exists". -/
theorem forgotPassword_responses_differ :
    (forgotPassword (some existingCred) "tok1" 0).1.status = 200 ∧
    (forgotPassword none "tok1" 0).1.status = 200 ∧
    (forgotPassword (some existingCred) "tok1" 0).1.resetToken = some "tok1" ∧
    (forgotPassword none "tok1" 0).1.resetToken = none ∧
    (forgotPassword (some existingCred) "tok1" 0).1.message ≠
      (forgotPassword none "tok1" 0).1.message := by
  decide

/-- `removeRefreshToken` never changes the email (only the token list). -/
theorem removeRefreshToken_email (c : UserCredentials) (tok : String) :
    (removeRefreshToken c tok).email = c.email := rfl

/-- Removing the same token twice is the same as removing it once. -/
theorem removeRefreshToken_idem (c : UserCredentials) (tok : String) :
    removeRefreshToken (removeRefreshToken c tok) tok = removeRefreshToken c tok := by
  have hp : (fun rt : RefreshTokenRecord => (rt.token != tok) && (rt.token != tok))
      = fun rt : RefreshTokenRecord => rt.token != tok := by
    funext rt
    exact Bool.and_self _
  simp only [removeRefreshToken, List.filter_filter, hp]

/-- Applying the logout update twice for the same email and token is the
same as applying it once. -/
theorem updateCredByEmail_remove_idem (db : List UserCredentials)
    (email tok : String) :
    updateCredByEmail
        (updateCredByEmail db email fun c => removeRefreshToken c tok)
        email (fun c => removeRefreshToken c tok)
      = updateCredByEmail db email fun c => removeRefreshToken c tok := by
  induction db with
  | nil => rfl
  | cons c rest ih =>
    by_cases h : (c.email == email) = true
    · simp only [updateCredByEmail, h, if_true, removeRefreshToken_email,
        removeRefreshToken_idem]
    · rw [Bool.not_eq_true] at h
      simp only [updateCredByEmail, h, Bool.false_eq_true, if_false, ih]

/-- Claim C9: for every supplied refresh token — whatever the verifier does
with it (malformed, expired, unknown email) and whatever the stored state —
`logout` answers 200 "Logout successful", and a second identical call
answers the same 200 and leaves the stored state exactly as after the first
call (removal is an idempotent no-op once the record is gone). -/
theorem logout_always_success (verifyRefreshToken : String → Option String)
    (db : List UserCredentials) (tok : String) :
    (logout verifyRefreshToken db (some tok)).1 =
      { status := 200, success := true, message := "Logout successful" } ∧
    logout verifyRefreshToken (logout verifyRefreshToken db (some tok)).2 (some tok) =
      ({ status := 200, success := true, message := "Logout successful" },
       (logout verifyRefreshToken db (some tok)).2) := by
  cases hv : verifyRefreshToken tok with
  | none => simp [logout, hv]
  | some email =>
    constructor
    · simp [logout, hv]
    · simp only [logout, hv]
      rw [updateCredByEmail_remove_idem]

end PeersDiary
